import Mathlib

/-!
Verification development for the process-manager repository: a shallow
embedding of its resource-monitoring core (resource_monitor.cpp), the
process-control operations (process_control.cpp) and the monitoring
lifecycle handled by the command loop (command_handler.cpp), together with
theorems settling the specification claims.

Modelling conventions:
* C++ `long`/`int` values are embedded as `Int`; `double` values as `ℚ`
  (the arithmetic performed by the code — one division, multiplications,
  comparisons — is exact on the inputs of interest, so `ℚ` is a faithful
  executable model of the `double` computations).
* The shared `std::unordered_map<int, Process> processes` is embedded as an
  association list with unique keys; `operator[]` on an absent key
  value-initialises the mapped `Process` (all fields zero / empty), which is
  modelled by `regFindD` returning `Process.zeroInit`.
* The external `/proc` reads are embedded as explicit environment
  parameters: `statOf : Int → Option ProcStat` models the outcome of opening
  and parsing `/proc/<pid>/stat` (`none` = the open fails, the path that
  makes `getProcessTotalTime` return 0), and the result of
  `getActiveProcesses()` is passed in as a list of scanned entries.
* Lock usage and blocking calls are made visible as an event trace
  (`Ev`): a lock acquisition/release pair plus the terminations and
  per-process reads performed, in program order.
-/

namespace ProcMan

/-- One entry of the shared `processes` map, mirroring `struct Process` from
process_info.h: pid, owning user, CPU usage percent, memory usage in MB,
previous total CPU time of the process, and command name. -/
structure Process where
  pid : Int
  user : String
  cpuUsage : ℚ
  memoryUsage : ℚ
  prevTotalTime : Int
  command : String
deriving Repr, DecidableEq

/-- Value-initialised `Process`, the record `std::unordered_map::operator[]`
inserts for an absent key (all numeric fields zero, strings empty). -/
def Process.zeroInit : Process :=
  { pid := 0, user := "", cpuUsage := 0, memoryUsage := 0, prevTotalTime := 0, command := "" }

/-- The shared `processes` map, embedded as an association list keyed by pid. -/
abbrev Registry := List (Int × Process)

/-- Lookup of a pid's record in the registry (`processes.find(pid)`). -/
def regFind : Registry → Int → Option Process
  | [], _ => none
  | kv :: rest, pid => if kv.1 = pid then some kv.2 else regFind rest pid

/-- Read of `processes[pid]`: the stored record when present, otherwise the
value-initialised record that `operator[]` would insert. -/
def regFindD (reg : Registry) (pid : Int) : Process :=
  (regFind reg pid).getD Process.zeroInit

/-- Write of `processes[pid] = p`: replace the record when the key is
present, otherwise append a fresh entry. -/
def regSet : Registry → Int → Process → Registry
  | [], pid, p => [(pid, p)]
  | kv :: rest, pid, p =>
    if kv.1 = pid then (pid, p) :: rest else kv :: regSet rest pid p

/-- Parsed fields of `/proc/<pid>/stat` that `getProcessTotalTime` consumes:
utime, stime, cutime, cstime. -/
structure ProcStat where
  utime : Int
  stime : Int
  cutime : Int
  cstime : Int
deriving Repr, DecidableEq

/-- Embedding of `getProcessTotalTime(pid)` (resource_monitor.cpp): when the
stat file cannot be opened the function logs an error and returns 0;
otherwise it returns utime + stime + cutime + cstime. The environment
`statOf` supplies the read outcome per pid. -/
def getProcessTotalTime (statOf : Int → Option ProcStat) (pid : Int) : Int :=
  match statOf pid with
  | none => 0
  | some s => s.utime + s.stime + s.cutime + s.cstime

/-- One element of the vector returned by `getActiveProcesses()`
(process_info.cpp): the enumeration fills in pid, user, memory usage and
command; `cpuUsage`/`prevTotalTime` are assigned by the CPU worker before
the struct reaches the map, so they are not part of the scanned data. -/
structure ScannedProc where
  pid : Int
  user : String
  memoryUsage : ℚ
  command : String
deriving Repr, DecidableEq

/-- Embedding of `calculateCpuUsage(processTimeDelta, totalCpuTimeDelta,
numCores)` (resource_monitor.cpp): returns 0.0 when the total delta is zero,
otherwise (processTimeDelta / totalCpuTimeDelta) * numCores * 100.0. -/
def calculateCpuUsage (processTimeDelta totalCpuTimeDelta numCores : Int) : ℚ :=
  if totalCpuTimeDelta = 0 then 0
  else ((processTimeDelta : ℚ) / (totalCpuTimeDelta : ℚ)) * (numCores : ℚ) * 100

/-- Body of the per-process loop inside `monitorCpu`'s sampling cycle
(resource_monitor.cpp lines 117–126): read the process's total CPU time,
compute the delta against `processes[pid].prevTotalTime`, then assign the
whole scanned struct into the map and overwrite its `prevTotalTime` and
`cpuUsage` fields. -/
def cpuUpdateOne (statOf : Int → Option ProcStat) (totalCpuTimeDelta numCores : Int)
    (reg : Registry) (p : ScannedProc) : Registry :=
  let totalProcessTime := getProcessTotalTime statOf p.pid
  let processTimeDelta := totalProcessTime - (regFindD reg p.pid).prevTotalTime
  regSet reg p.pid
    { pid := p.pid
      user := p.user
      cpuUsage := calculateCpuUsage processTimeDelta totalCpuTimeDelta numCores
      memoryUsage := p.memoryUsage
      prevTotalTime := totalProcessTime
      command := p.command }

/-- One sampling cycle of the CPU worker `monitorCpu` after its sleep: the
system CPU-time delta and the active-process enumeration are obtained before
the lock, then every enumerated process is updated in the map in order.
No entry is ever removed. -/
def monitorCpuCycle (statOf : Int → Option ProcStat) (totalCpuTimeDelta numCores : Int)
    (activeProcesses : List ScannedProc) (reg : Registry) : Registry :=
  activeProcesses.foldl (cpuUpdateOne statOf totalCpuTimeDelta numCores) reg

/-- Body of the per-process loop inside `monitorMemory`'s sampling cycle
(resource_monitor.cpp lines 155–160): assign only `memoryUsage`, `command`
and `user` of `processes[pid]`, leaving the other fields of the current
record (or of the value-initialised record on first touch) in place. -/
def memUpdateOne (reg : Registry) (p : ScannedProc) : Registry :=
  let cur := regFindD reg p.pid
  regSet reg p.pid
    { cur with memoryUsage := p.memoryUsage, command := p.command, user := p.user }

/-- One sampling cycle of the memory worker `monitorMemory` after its sleep. -/
def monitorMemoryCycle (activeProcesses : List ScannedProc) (reg : Registry) : Registry :=
  activeProcesses.foldl memUpdateOne reg

/-- The filter criterion held in the global `filterCriterion` pair: the
first component selects the kind ("user" / "cpu" / "memory" / "none") and
the second carries the value (re-parsed with `std::stod` for the numeric
kinds; the embedding carries the parsed number). -/
inductive FilterCriterion
  | nofilter
  | byUser (v : String)
  | byCpu (v : ℚ)
  | byMemory (v : ℚ)
deriving Repr, DecidableEq

/-- The keep/skip decision of the display loop in `monitorProcesses`
(resource_monitor.cpp lines 193–204): a record is skipped (`continue`) when
the user filter is set and the user differs, or when the cpu (memory) filter
is set and `cpuUsage <= threshold` (`memoryUsage <= threshold`). -/
def keepsRecord : FilterCriterion → Process → Bool
  | .nofilter, _ => true
  | .byUser v, p => p.user = v
  | .byCpu v, p => !(p.cpuUsage ≤ v)
  | .byMemory v, p => !(p.memoryUsage ≤ v)

/-- The vector built under the lock by `monitorProcesses`: all records that
pass the filter, in registry order. -/
def snapshotRows (filter : FilterCriterion) (reg : Registry) : List Process :=
  (reg.map Prod.snd).filter (keepsRecord filter)

/-- Insertion into a descending-ordered list by the given key, the ordering
produced by `std::sort` with comparator `a.key > b.key`. -/
def insertDescBy (key : Process → ℚ) (p : Process) : List Process → List Process
  | [] => [p]
  | q :: rest => if key q < key p then p :: q :: rest else q :: insertDescBy key p rest

/-- Sorting a row list in descending order of the given key. -/
def sortDescBy (key : Process → ℚ) : List Process → List Process
  | [] => []
  | p :: rest => insertDescBy key p (sortDescBy key rest)

/-- The sorting step of `monitorProcesses` (lines 211–220): descending by
`cpuUsage` when `sortingCriterion == "cpu"`, descending by `memoryUsage`
when it is "memory", otherwise the rows are left as collected. -/
def sortRows (sortingCriterion : String) (rows : List Process) : List Process :=
  if sortingCriterion = "cpu" then sortDescBy Process.cpuUsage rows
  else if sortingCriterion = "memory" then sortDescBy Process.memoryUsage rows
  else rows

/-- One display cycle of `monitorProcesses`: collect the filtered rows under
the lock, then sort the copy outside the lock. -/
def monitorProcessesSnapshot (filter : FilterCriterion) (sortingCriterion : String)
    (reg : Registry) : List Process :=
  sortRows sortingCriterion (snapshotRows filter reg)

/-- Outcome of the `kill(pid, SIGKILL)` system call as classified by
process_control.cpp's errno handling: success, ESRCH, EPERM, or any other
error. The environment `osKill` supplies the outcome per pid. -/
inductive TermResult
  | ok
  | noSuchProcess
  | permissionDenied
  | otherError
deriving Repr, DecidableEq

/-- Observable events of a control or worker operation, in program order:
acquiring/releasing the `processMutex` lock, issuing a termination system
call, and reading a process's accounting data from the OS. -/
inductive Ev
  | lockAcq
  | lockRel
  | termCall (pid : Int)
  | procRead (pid : Int)
deriving Repr, DecidableEq

/-- Embedding of `killProcess(pid)` (process_control.cpp lines 20–59).
Returns the boolean result together with the trace of termination system
calls issued: `pid <= 0` and `pid == getpid()` are rejected before any
system call; otherwise exactly one `kill` is attempted and its outcome
decides the result. `selfPid` is this program's own process id. -/
def killProcess (selfPid : Int) (osKill : Int → TermResult) (pid : Int) :
    Bool × List Int :=
  if pid ≤ 0 then (false, [])
  else if pid = selfPid then (false, [])
  else
    match osKill pid with
    | .ok => (true, [pid])
    | _ => (false, [pid])

/-- The loop body of `killProcessesByCpu` over the registry entries
(process_control.cpp lines 70–99), run while `processMutex` is held: for
each record with `cpuUsage > threshold` a termination call is issued and the
success/failure counters are updated. Returns the events issued inside the
lock and the two counters. -/
def killByCpuLoop (osKill : Int → TermResult) (threshold : ℚ) :
    Registry → List Ev × Nat × Nat
  | [] => ([], 0, 0)
  | (pid, p) :: rest =>
    if threshold < p.cpuUsage then
      let res := osKill pid
      let tail := killByCpuLoop osKill threshold rest
      (Ev.termCall pid :: tail.1,
        (if res = .ok then tail.2.1 + 1 else tail.2.1),
        (if res = .ok then tail.2.2 else tail.2.2 + 1))
    else killByCpuLoop osKill threshold rest

/-- Embedding of `killProcessesByCpu(threshold)`: the whole selection and
termination loop runs inside one `lock_guard` scope, so the trace is the
lock acquisition, the per-victim termination calls, then the release. The
returned boolean is `anyKilled` (true iff some termination succeeded). -/
def killProcessesByCpu (osKill : Int → TermResult) (threshold : ℚ) (reg : Registry) :
    List Ev × Nat × Nat × Bool :=
  let body := killByCpuLoop osKill threshold reg
  (Ev.lockAcq :: body.1 ++ [Ev.lockRel], body.2.1, body.2.2, decide (0 < body.2.1))

/-- Event trace of one `monitorCpu` sampling cycle: `getTotalCpuTime()` and
`getActiveProcesses()` run before the lock; the per-process
`getProcessTotalTime` reads (resource_monitor.cpp line 119) run inside the
`lock_guard` scope. -/
def monitorCpuCycleTrace (activeProcesses : List ScannedProc) : List Ev :=
  Ev.lockAcq :: activeProcesses.map (fun p => Ev.procRead p.pid) ++ [Ev.lockRel]

/-- Whether an event is a blocking call to an external collaborator (a
termination system call or an OS accounting read). -/
def blockingEvent : Ev → Bool
  | .termCall _ => true
  | .procRead _ => true
  | _ => false

/-- Scan of a trace tracking whether the registry lock is held, reporting
whether some blocking event occurs while it is held. -/
def lockHeldAtBlocking : List Ev → Bool → Bool
  | [], _ => false
  | Ev.lockAcq :: rest, _ => lockHeldAtBlocking rest true
  | Ev.lockRel :: rest, _ => lockHeldAtBlocking rest false
  | e :: rest, held => (held && blockingEvent e) || lockHeldAtBlocking rest held

/-- A trace holds the registry lock across blocking I/O when some blocking
event occurs between a lock acquisition and its release. -/
def holdsLockAcrossBlocking (t : List Ev) : Bool :=
  lockHeldAtBlocking t false

/-- The process-wide monitoring state shared between the command loop and
the workers (globals.cpp), together with the structural thread bookkeeping
of command_handler.cpp: `detachedWorkers` are the worker threads spawned and
immediately detached by `start_monitor` (lines 225–232), and
`monitoringThread` is the `std::thread monitoringThread` declared at line 28,
which no code path ever assigns a thread to. -/
structure MonitorState where
  monitoringActive : Bool
  monitoringPaused : Bool
  sortingCriterion : String
  filterCriterion : FilterCriterion
  updateFrequency : Int
  processes : Registry
  detachedWorkers : List String
  monitoringThread : Option String
deriving Repr, DecidableEq

/-- The initial global state (globals.cpp): monitoring inactive, not
paused, sorting by cpu, no filter, a 5 second update frequency, an empty
registry, no worker threads, and a default-constructed (non-joinable)
`monitoringThread`. -/
def initialState : MonitorState :=
  { monitoringActive := false
    monitoringPaused := false
    sortingCriterion := "cpu"
    filterCriterion := .nofilter
    updateFrequency := 5
    processes := []
    detachedWorkers := []
    monitoringThread := none }

/-- Embedding of the `start_monitor` command branch (command_handler.cpp
lines 205–241): when monitoring is already active it only reports so;
otherwise it validates the sorting argument (defaulting to "cpu"), stores
the sorting criterion, sets the active flag, and spawns-and-detaches the
three worker threads. The registry is not touched. Returns the new state
and the message printed. -/
def startMonitor (s : MonitorState) (arg : Option String) : MonitorState × String :=
  if s.monitoringActive then (s, "Monitoring is already active.")
  else
    let sortBy :=
      match arg with
      | some v => if v = "cpu" ∨ v = "memory" then v else "cpu"
      | none => "cpu"
    ({ s with
        sortingCriterion := sortBy
        monitoringActive := true
        detachedWorkers := ["cpuThread", "memoryThread", "displayThread"] },
      "Monitoring started with sorting by " ++ sortBy ++ ".")

/-- Result of the `stop_monitor` command branch: the new state, the list of
threads actually joined before the message is printed, and the message. -/
structure StopResult where
  state : MonitorState
  joinedThreads : List String
  message : String
deriving Repr, DecidableEq

/-- Embedding of the `stop_monitor` command branch (command_handler.cpp
lines 546–568), which is also the body of `handleSigint` (lines 66–84):
when active, it stores `monitoringActive = false`, notifies the condition
variable, joins `monitoringThread` if that thread object is joinable (it
never is: nothing ever assigns it), and then prints "Monitoring stopped.".
The detached worker threads are not joined — `std::thread::detach` makes
them unjoinable — and keep running until they next observe the flag. -/
def stopMonitor (s : MonitorState) : StopResult :=
  if s.monitoringActive then
    { state := { s with monitoringActive := false }
      joinedThreads :=
        match s.monitoringThread with
        | some t => [t]
        | none => []
      message := "Monitoring stopped." }
  else
    { state := s, joinedThreads := [], message := "Monitoring is not active." }

/-- Filter semantics exactly as the specification words them, for comparison
with the code's keep/skip decision: `byOwner` keeps iff the owner equals the
value, `byCpuAbove`/`byMemoryAbove` keep iff the field is strictly greater
than the threshold, `none` keeps all. -/
def snapshotKeepSpec : FilterCriterion → Process → Prop
  | .nofilter, _ => True
  | .byUser v, p => p.user = v
  | .byCpu v, p => v < p.cpuUsage
  | .byMemory v, p => v < p.memoryUsage

/-- Registry-wide non-negativity of the resource fields, read through
`processes[pid]` semantics (absent pids read as the value-initialised
record, which trivially satisfies it). -/
def regNonneg (reg : Registry) : Prop :=
  ∀ x : Int, 0 ≤ (regFindD reg x).cpuUsage ∧ 0 ≤ (regFindD reg x).memoryUsage

section RegistryLemmas

theorem regFind_regSet_self (reg : Registry) (pid : Int) (p : Process) :
    regFind (regSet reg pid p) pid = some p := by
  induction reg with
  | nil => simp [regSet, regFind]
  | cons kv rest ih =>
    by_cases h : kv.1 = pid
    · simp [regSet, h, regFind]
    · simp [regSet, h, regFind, ih]

theorem regFind_regSet_ne (reg : Registry) (pid q : Int) (p : Process) (h : q ≠ pid) :
    regFind (regSet reg pid p) q = regFind reg q := by
  have h' : pid ≠ q := Ne.symm h
  induction reg with
  | nil => simp [regSet, regFind, h']
  | cons kv rest ih =>
    by_cases hk : kv.1 = pid
    · simp [regSet, hk, regFind, h']
    · simp [regSet, hk, regFind, ih]

theorem regFindD_regSet_self (reg : Registry) (pid : Int) (p : Process) :
    regFindD (regSet reg pid p) pid = p := by
  simp [regFindD, regFind_regSet_self]

theorem regFindD_regSet_ne (reg : Registry) (pid q : Int) (p : Process) (h : q ≠ pid) :
    regFindD (regSet reg pid p) q = regFindD reg q := by
  simp [regFindD, regFind_regSet_ne reg pid q p h]

theorem isSome_regFind_regSet (reg : Registry) (pid q : Int) (p : Process)
    (h : (regFind reg q).isSome) : (regFind (regSet reg pid p) q).isSome := by
  by_cases hq : q = pid
  · subst hq; simp [regFind_regSet_self]
  · rwa [regFind_regSet_ne reg pid q p hq]

end RegistryLemmas

section CycleLemmas

theorem isSome_regFind_cpuUpdateOne (statOf : Int → Option ProcStat)
    (td nc : Int) (reg : Registry) (p : ScannedProc) (q : Int)
    (h : (regFind reg q).isSome) :
    (regFind (cpuUpdateOne statOf td nc reg p) q).isSome := by
  unfold cpuUpdateOne
  exact isSome_regFind_regSet _ _ _ _ h

theorem isSome_regFind_monitorCpuCycle (statOf : Int → Option ProcStat)
    (td nc : Int) (active : List ScannedProc) (reg : Registry) (q : Int)
    (h : (regFind reg q).isSome) :
    (regFind (monitorCpuCycle statOf td nc active reg) q).isSome := by
  induction active generalizing reg with
  | nil => exact h
  | cons p rest ih =>
    exact ih _ (isSome_regFind_cpuUpdateOne statOf td nc reg p q h)

theorem regFindD_cpuUpdateOne_self (statOf : Int → Option ProcStat)
    (td nc : Int) (reg : Registry) (p : ScannedProc) :
    regFindD (cpuUpdateOne statOf td nc reg p) p.pid =
      { pid := p.pid
        user := p.user
        cpuUsage := calculateCpuUsage
          (getProcessTotalTime statOf p.pid - (regFindD reg p.pid).prevTotalTime) td nc
        memoryUsage := p.memoryUsage
        prevTotalTime := getProcessTotalTime statOf p.pid
        command := p.command } := by
  unfold cpuUpdateOne
  exact regFindD_regSet_self _ _ _

theorem regFindD_memUpdateOne_cpuFields (reg : Registry) (p : ScannedProc) (q : Int) :
    (regFindD (memUpdateOne reg p) q).cpuUsage = (regFindD reg q).cpuUsage ∧
      (regFindD (memUpdateOne reg p) q).prevTotalTime = (regFindD reg q).prevTotalTime := by
  unfold memUpdateOne
  by_cases hq : q = p.pid
  · subst hq; simp [regFindD_regSet_self]
  · simp [regFindD_regSet_ne _ _ _ _ hq]

theorem regFindD_monitorMemoryCycle_cpuFields (active : List ScannedProc)
    (reg : Registry) (q : Int) :
    (regFindD (monitorMemoryCycle active reg) q).cpuUsage = (regFindD reg q).cpuUsage ∧
      (regFindD (monitorMemoryCycle active reg) q).prevTotalTime =
        (regFindD reg q).prevTotalTime := by
  induction active generalizing reg with
  | nil => exact ⟨rfl, rfl⟩
  | cons p rest ih =>
    have h1 := regFindD_memUpdateOne_cpuFields reg p q
    have h2 := ih (memUpdateOne reg p)
    exact ⟨h2.1.trans h1.1, h2.2.trans h1.2⟩

theorem calculateCpuUsage_nonneg (pd td nc : Int)
    (hpd : 0 ≤ pd) (htd : 0 ≤ td) (hnc : 0 ≤ nc) :
    0 ≤ calculateCpuUsage pd td nc := by
  unfold calculateCpuUsage
  by_cases h : td = 0
  · simp [h]
  · simp only [h, if_false]
    have h1 : (0 : ℚ) ≤ (pd : ℚ) / (td : ℚ) := by
      apply div_nonneg <;> exact_mod_cast ‹_›
    have h2 : (0 : ℚ) ≤ (nc : ℚ) := by exact_mod_cast hnc
    positivity

theorem regFindD_cpuUpdateOne_ne (statOf : Int → Option ProcStat)
    (td nc : Int) (reg : Registry) (p : ScannedProc) (q : Int) (h : q ≠ p.pid) :
    regFindD (cpuUpdateOne statOf td nc reg p) q = regFindD reg q := by
  unfold cpuUpdateOne
  exact regFindD_regSet_ne _ _ _ _ h

theorem regFindD_memUpdateOne_ne (reg : Registry) (p : ScannedProc) (q : Int)
    (h : q ≠ p.pid) :
    regFindD (memUpdateOne reg p) q = regFindD reg q := by
  unfold memUpdateOne
  exact regFindD_regSet_ne _ _ _ _ h

theorem cpuUpdateOne_nonneg (statOf : Int → Option ProcStat) (td nc : Int)
    (reg : Registry) (p : ScannedProc)
    (hreg : regNonneg reg)
    (hmem : 0 ≤ p.memoryUsage)
    (hprev : ∀ x : Int, (regFindD reg x).prevTotalTime ≤ getProcessTotalTime statOf x)
    (htd : 0 ≤ td) (hnc : 0 ≤ nc) :
    regNonneg (cpuUpdateOne statOf td nc reg p) := by
  intro x
  by_cases hx : x = p.pid
  · subst hx
    rw [regFindD_cpuUpdateOne_self]
    refine ⟨calculateCpuUsage_nonneg _ _ _ ?_ htd hnc, hmem⟩
    exact sub_nonneg.mpr (hprev p.pid)
  · rw [regFindD_cpuUpdateOne_ne statOf td nc reg p x hx]
    exact hreg x

theorem cpuUpdateOne_prev_le (statOf : Int → Option ProcStat) (td nc : Int)
    (reg : Registry) (p : ScannedProc)
    (hprev : ∀ x : Int, (regFindD reg x).prevTotalTime ≤ getProcessTotalTime statOf x) :
    ∀ x : Int, (regFindD (cpuUpdateOne statOf td nc reg p) x).prevTotalTime ≤
      getProcessTotalTime statOf x := by
  intro x
  by_cases hx : x = p.pid
  · subst hx
    rw [regFindD_cpuUpdateOne_self]
  · rw [regFindD_cpuUpdateOne_ne statOf td nc reg p x hx]
    exact hprev x

theorem monitorCpuCycle_nonneg (statOf : Int → Option ProcStat) (td nc : Int)
    (active : List ScannedProc) (reg : Registry)
    (hreg : regNonneg reg)
    (hmem : ∀ p ∈ active, 0 ≤ p.memoryUsage)
    (hprev : ∀ x : Int, (regFindD reg x).prevTotalTime ≤ getProcessTotalTime statOf x)
    (htd : 0 ≤ td) (hnc : 0 ≤ nc) :
    regNonneg (monitorCpuCycle statOf td nc active reg) := by
  induction active generalizing reg with
  | nil => exact hreg
  | cons p rest ih =>
    refine ih (cpuUpdateOne statOf td nc reg p)
      (cpuUpdateOne_nonneg statOf td nc reg p hreg (hmem p (by simp)) hprev htd hnc)
      (fun q hq => hmem q (by simp [hq]))
      (cpuUpdateOne_prev_le statOf td nc reg p hprev)

theorem memUpdateOne_nonneg (reg : Registry) (p : ScannedProc)
    (hreg : regNonneg reg) (hmem : 0 ≤ p.memoryUsage) :
    regNonneg (memUpdateOne reg p) := by
  intro x
  by_cases hx : x = p.pid
  · subst hx
    unfold memUpdateOne
    rw [regFindD_regSet_self]
    exact ⟨(hreg p.pid).1, hmem⟩
  · rw [regFindD_memUpdateOne_ne reg p x hx]
    exact hreg x

theorem monitorMemoryCycle_nonneg (active : List ScannedProc) (reg : Registry)
    (hreg : regNonneg reg) (hmem : ∀ p ∈ active, 0 ≤ p.memoryUsage) :
    regNonneg (monitorMemoryCycle active reg) := by
  induction active generalizing reg with
  | nil => exact hreg
  | cons p rest ih =>
    exact ih (memUpdateOne reg p)
      (memUpdateOne_nonneg reg p hreg (hmem p (by simp)))
      (fun q hq => hmem q (by simp [hq]))

end CycleLemmas

section SortLemmas

theorem mem_insertDescBy (key : Process → ℚ) (p a : Process) (l : List Process) :
    a ∈ insertDescBy key p l ↔ a = p ∨ a ∈ l := by
  induction l with
  | nil => simp [insertDescBy]
  | cons q rest ih =>
    by_cases h : key q < key p
    · simp [insertDescBy, h]
    · simp only [insertDescBy, h, if_false, List.mem_cons, ih]
      tauto

theorem sorted_insertDescBy (key : Process → ℚ) (p : Process) (l : List Process)
    (hs : List.Sorted (fun a b => key b ≤ key a) l) :
    List.Sorted (fun a b => key b ≤ key a) (insertDescBy key p l) := by
  induction l with
  | nil => simp [insertDescBy]
  | cons q rest ih =>
    rw [List.sorted_cons] at hs
    by_cases h : key q < key p
    · rw [insertDescBy, if_pos h]
      refine List.sorted_cons.mpr ⟨?_, List.sorted_cons.mpr hs⟩
      intro b hb
      rcases List.mem_cons.mp hb with hb | hb
      · exact hb ▸ le_of_lt h
      · exact le_trans (hs.1 b hb) (le_of_lt h)
    · rw [insertDescBy, if_neg h]
      refine List.sorted_cons.mpr ⟨?_, ih hs.2⟩
      intro b hb
      rcases (mem_insertDescBy key p b rest).mp hb with hb | hb
      · exact hb ▸ le_of_not_lt h
      · exact hs.1 b hb

theorem sorted_sortDescBy (key : Process → ℚ) (l : List Process) :
    List.Sorted (fun a b => key b ≤ key a) (sortDescBy key l) := by
  induction l with
  | nil => simp [sortDescBy]
  | cons p rest ih => exact sorted_insertDescBy key p _ ih

theorem perm_insertDescBy (key : Process → ℚ) (p : Process) (l : List Process) :
    List.Perm (insertDescBy key p l) (p :: l) := by
  induction l with
  | nil => rfl
  | cons q rest ih =>
    by_cases h : key q < key p
    · rw [insertDescBy, if_pos h]
    · rw [insertDescBy, if_neg h]
      exact (ih.cons q).trans (List.Perm.swap p q rest)

theorem perm_sortDescBy (key : Process → ℚ) (l : List Process) :
    List.Perm (sortDescBy key l) l := by
  induction l with
  | nil => rfl
  | cons p rest ih =>
    exact (perm_insertDescBy key p _).trans (ih.cons p)

theorem sortRows_cpu (rows : List Process) :
    sortRows "cpu" rows = sortDescBy Process.cpuUsage rows := rfl

theorem sortRows_memory (rows : List Process) :
    sortRows "memory" rows = sortDescBy Process.memoryUsage rows := by
  unfold sortRows
  rw [if_neg (by decide), if_pos rfl]

theorem perm_sortRows (k : String) (rows : List Process) : List.Perm (sortRows k rows) rows := by
  unfold sortRows
  by_cases h1 : k = "cpu"
  · simp [h1, perm_sortDescBy]
  · by_cases h2 : k = "memory"
    · simp [h1, h2, perm_sortDescBy]
    · simp [h1, h2]

end SortLemmas

section TraceLemmas

theorem lockHeldAtBlocking_cons_blocking (e : Ev) (evs : List Ev)
    (h : blockingEvent e = true) :
    lockHeldAtBlocking (e :: evs) true = true := by
  cases e <;> simp_all [blockingEvent, lockHeldAtBlocking]

theorem killByCpuLoop_trace_shape (osKill : Int → TermResult) (th : ℚ) :
    ∀ reg : Registry, (killByCpuLoop osKill th reg).1 = [] ∨
      ∃ pid rest, (killByCpuLoop osKill th reg).1 = Ev.termCall pid :: rest := by
  intro reg
  induction reg with
  | nil => exact Or.inl rfl
  | cons kv rest ih =>
    obtain ⟨pid, p⟩ := kv
    by_cases h : th < p.cpuUsage
    · exact Or.inr ⟨pid, (killByCpuLoop osKill th rest).1, by simp [killByCpuLoop, h]⟩
    · simpa [killByCpuLoop, h] using ih

theorem killByCpuLoop_trace_ne_nil (osKill : Int → TermResult) (th : ℚ)
    (reg : Registry) (kv : Int × Process)
    (hmem : kv ∈ reg) (hcpu : th < kv.2.cpuUsage) :
    (killByCpuLoop osKill th reg).1 ≠ [] := by
  induction reg with
  | nil => cases hmem
  | cons hd tl ih =>
    obtain ⟨pid, p⟩ := hd
    rcases List.mem_cons.mp hmem with hkv | hkv
    · subst hkv
      simp [killByCpuLoop, hcpu]
    · by_cases h : th < p.cpuUsage
      · simp [killByCpuLoop, h]
      · simpa [killByCpuLoop, h] using ih hkv

end TraceLemmas

/-- Record of the worked display scenario: pid 1, cpu 50, mem 10, user "a". -/
def demoRec1 : Process :=
  { pid := 1, user := "a", cpuUsage := 50, memoryUsage := 10, prevTotalTime := 0, command := "" }

/-- Record of the worked display scenario: pid 2, cpu 10, mem 90, user "b". -/
def demoRec2 : Process :=
  { pid := 2, user := "b", cpuUsage := 10, memoryUsage := 90, prevTotalTime := 0, command := "" }

/-- Two-record registry of the worked display scenario. -/
def demoReg : Registry := [(1, demoRec1), (2, demoRec2)]

/-- A scanned enumeration entry for pid 1. -/
def scanP1 : ScannedProc := { pid := 1, user := "a", memoryUsage := 5, command := "x" }

/-- A scanned enumeration entry for pid 7. -/
def scanP7 : ScannedProc := { pid := 7, user := "u", memoryUsage := 3, command := "c" }

/-- An environment in which only pid 1's stat file is readable. -/
def statEnv1 : Int → Option ProcStat :=
  fun pid => if pid = 1 then some { utime := 10, stime := 0, cutime := 0, cstime := 0 } else none

/-- An environment in which no stat file is readable (every enumerated
process exited between enumeration and read). -/
def statEnvDead : Int → Option ProcStat := fun _ => none

/-- An environment in which only pid 7's stat file is readable, with 100
accumulated ticks. -/
def statEnvAlive7 : Int → Option ProcStat :=
  fun pid => if pid = 7 then some { utime := 100, stime := 0, cutime := 0, cstime := 0 } else none

/-- A registry record for pid 99 as a previous sampling cycle would have
left it (baseline 100 ticks). -/
def staleRec : Process :=
  { pid := 99, user := "z", cpuUsage := 3, memoryUsage := 4, prevTotalTime := 100, command := "zz" }

/-- A registry record for pid 7 as a previous sampling cycle would have
left it (baseline 100 ticks, cpu 800). -/
def staleRec7 : Process :=
  { pid := 7, user := "u", cpuUsage := 800, memoryUsage := 3, prevTotalTime := 100, command := "c" }

/-- Claim C7: `calculateCpuUsage(processTimeDelta, totalCpuTimeDelta,
numCores)` returns (processTimeDelta / totalCpuTimeDelta) * numCores * 100.0
whenever the total delta is non-zero, and returns 0.0 for a zero total delta
for every processTimeDelta and core count (a benign case, not an error). -/
theorem calculateCpuUsage_spec (pd td nc : Int) :
    (td ≠ 0 → calculateCpuUsage pd td nc = (pd : ℚ) / (td : ℚ) * (nc : ℚ) * 100) ∧
    calculateCpuUsage pd 0 nc = 0 := by
  constructor
  · intro h
    simp [calculateCpuUsage, h]
  · simp [calculateCpuUsage]

/-- Witness for claim C7's theorem at concrete inputs: a non-zero total
delta (3, 6, 2 cores gives 100 percent) and the zero-delta edge case. -/
theorem calculateCpuUsage_spec_witness :
    calculateCpuUsage 3 6 2 = 100 ∧ calculateCpuUsage 5 0 7 = 0 := by
  have h1 := (calculateCpuUsage_spec 3 6 2).1 (by norm_num)
  have h2 := (calculateCpuUsage_spec 5 0 7).2
  refine ⟨?_, h2⟩
  rw [h1]
  norm_num

/-- Claim C9: `killProcess(pid)` returns failure with no termination system
call whenever pid is non-positive or equals this program's own process id;
only otherwise does it issue the termination call (exactly one, on that
pid). -/
theorem killProcess_guards (selfPid : Int) (osKill : Int → TermResult) (pid : Int) :
    (pid ≤ 0 ∨ pid = selfPid → killProcess selfPid osKill pid = (false, [])) ∧
    (0 < pid → pid ≠ selfPid → (killProcess selfPid osKill pid).2 = [pid]) := by
  constructor
  · rintro (h | h)
    · simp [killProcess, h]
    · subst h
      unfold killProcess
      by_cases h0 : pid ≤ 0 <;> simp [h0]
  · intro h1 h2
    unfold killProcess
    rw [if_neg (not_le.mpr h1), if_neg h2]
    cases osKill pid <;> simp

/-- Witness for claim C9's theorem: pid -3 and the self pid are rejected
with an empty termination trace, and a valid foreign pid 7 produces exactly
one termination call. -/
theorem killProcess_guards_witness :
    killProcess 42 (fun _ => TermResult.ok) (-3) = (false, []) ∧
    killProcess 42 (fun _ => TermResult.ok) 42 = (false, []) ∧
    (killProcess 42 (fun _ => TermResult.ok) 7).2 = [7] :=
  ⟨(killProcess_guards 42 (fun _ => TermResult.ok) (-3)).1 (Or.inl (by norm_num)),
   (killProcess_guards 42 (fun _ => TermResult.ok) 42).1 (Or.inr rfl),
   (killProcess_guards 42 (fun _ => TermResult.ok) 7).2 (by norm_num) (by norm_num)⟩

/-- Claim C10: starting monitoring leaves the shared process registry
unchanged (it only sets the active flag and the sorting criterion and spawns
workers), stopping leaves it unchanged too, so every record — including its
cpuUsage and prevTotalTime baseline — persists across a stop/start cycle and
subsequent snapshots of the untouched registry are identical. -/
theorem startMonitor_preserves_registry (s : MonitorState) (arg : Option String)
    (f : FilterCriterion) (k : String) :
    (startMonitor s arg).1.processes = s.processes ∧
    (startMonitor s arg).1.monitoringPaused = s.monitoringPaused ∧
    (startMonitor s arg).1.filterCriterion = s.filterCriterion ∧
    (startMonitor s arg).1.updateFrequency = s.updateFrequency ∧
    (stopMonitor s).state.processes = s.processes ∧
    (startMonitor (stopMonitor s).state arg).1.processes = s.processes ∧
    monitorProcessesSnapshot f k (startMonitor (stopMonitor s).state arg).1.processes =
      monitorProcessesSnapshot f k s.processes := by
  unfold startMonitor stopMonitor
  cases hA : s.monitoringActive <;> simp [hA]

/-- Claim C1 counterexample: a CPU-sampling cycle whose enumeration is
exactly {pid 1} leaves the registry record of pid 99 — absent from the
enumeration — in place, unchanged; no reconcile/eviction happens. -/
theorem cpuCycle_keeps_stale_pid :
    ((99 : Int) ∉ [scanP1].map ScannedProc.pid) ∧
    regFind (monitorCpuCycle statEnv1 100 4 [scanP1] [(99, staleRec)]) 99 = some staleRec := by
  constructor
  · simp [scanP1]
  · norm_num [monitorCpuCycle, cpuUpdateOne, regFindD, regFind, regSet, scanP1, staleRec,
      statEnv1, getProcessTotalTime, Process.zeroInit, calculateCpuUsage]

/-- Claim C1 amended: `monitorCpu` performs no reconciliation at all —
registry membership is monotone across a CPU-sampling cycle, so a record
whose pid is absent from the cycle's enumeration survives the cycle (and
every later one), with no staleness bound. -/
theorem cpuCycle_membership_monotone (statOf : Int → Option ProcStat) (td nc : Int)
    (active : List ScannedProc) (reg : Registry) (pid : Int)
    (h : (regFind reg pid).isSome) :
    (regFind (monitorCpuCycle statOf td nc active reg) pid).isSome :=
  isSome_regFind_monitorCpuCycle statOf td nc active reg pid h

/-- Witness for claim C1's amended theorem: pid 99's record is still
present after a cycle that enumerated only pid 1. -/
theorem cpuCycle_membership_monotone_witness :
    (regFind (monitorCpuCycle statEnv1 100 4 [scanP1] [(99, staleRec)]) 99).isSome :=
  cpuCycle_membership_monotone statEnv1 100 4 [scanP1] [(99, staleRec)] 99
    (by simp [regFind])

/-- Claim C2 counterexample: pid 7's stat read fails (`statEnvDead` returns
no data, so `getProcessTotalTime` returns 0), yet the sampling cycle does
not skip the pid: it overwrites the existing record, resetting the
`prevTotalTime` baseline to 0 and storing the garbage usage value
(0 − 100) / 50 * 4 * 100 = −800 instead of leaving the record alone. -/
theorem failedRead_not_skipped :
    statEnvDead 7 = none ∧
    regFind (monitorCpuCycle statEnvDead 50 4 [scanP7] [(7, staleRec7)]) 7 =
      some { pid := 7, user := "u", cpuUsage := -800, memoryUsage := 3,
             prevTotalTime := 0, command := "c" } ∧
    regFind (monitorCpuCycle statEnvDead 50 4 [scanP7] [(7, staleRec7)]) 7 ≠
      some staleRec7 := by
  refine ⟨rfl, ?_, ?_⟩ <;>
    norm_num [monitorCpuCycle, cpuUpdateOne, regFindD, regFind, regSet, scanP7, staleRec7,
      statEnvDead, getProcessTotalTime, calculateCpuUsage, Process.zeroInit]

/-- Claim C2 amended: when the per-process accounting read fails for an
enumerated pid, the CPU worker does not skip it — `getProcessTotalTime`
returns 0 and the worker still upserts a record for the pid, with
`prevTotalTime` reset to 0 and `cpuUsage` computed from the delta
0 − (stored baseline); the loop itself continues over the remaining pids
(the cycle is a total function, it never crashes). -/
theorem failedRead_upserts_record (statOf : Int → Option ProcStat) (td nc : Int)
    (reg : Registry) (p : ScannedProc) (h : statOf p.pid = none) :
    regFindD (cpuUpdateOne statOf td nc reg p) p.pid =
      { pid := p.pid
        user := p.user
        cpuUsage := calculateCpuUsage (0 - (regFindD reg p.pid).prevTotalTime) td nc
        memoryUsage := p.memoryUsage
        prevTotalTime := 0
        command := p.command } := by
  have hread : getProcessTotalTime statOf p.pid = 0 := by
    simp [getProcessTotalTime, h]
  rw [regFindD_cpuUpdateOne_self, hread]

/-- Witness for claim C2's amended theorem: the failed read of pid 7 leads
to an upserted record with a zeroed baseline. -/
theorem failedRead_upserts_record_witness :
    regFindD (cpuUpdateOne statEnvDead 50 4 [(7, staleRec7)] scanP7) scanP7.pid =
      { pid := scanP7.pid
        user := scanP7.user
        cpuUsage := calculateCpuUsage (0 - (regFindD [(7, staleRec7)] scanP7.pid).prevTotalTime) 50 4
        memoryUsage := scanP7.memoryUsage
        prevTotalTime := 0
        command := scanP7.command } :=
  failedRead_upserts_record statEnvDead 50 4 [(7, staleRec7)] scanP7 rfl

/-- Registry as left by a memory-worker cycle that saw pid 7. -/
def regAfterMem : Registry := monitorMemoryCycle [scanP7] []

/-- Registry after a further successful CPU cycle (pid 7 readable at 100
ticks, system delta 50, 4 cores), which stores the baseline 100. -/
def regAfterCpuOk : Registry := monitorCpuCycle statEnvAlive7 50 4 [scanP7] regAfterMem

/-- Claim C3 counterexample: a reachable registry state in which pid 7's
`cpuUsage` is negative — after a cycle in which pid 7's stat read fails,
the stored value is (0 − 100) / 50 * 4 * 100 = −800 < 0. -/
theorem registry_cpuUsage_can_be_negative :
    (regFindD (monitorCpuCycle statEnvDead 50 4 [scanP7] regAfterCpuOk) 7).cpuUsage < 0 := by
  norm_num [monitorCpuCycle, cpuUpdateOne, monitorMemoryCycle, memUpdateOne, regAfterCpuOk,
    regAfterMem, regFindD, regFind, regSet, scanP7, statEnvDead, statEnvAlive7,
    getProcessTotalTime, calculateCpuUsage, Process.zeroInit]

/-- Claim C3 amended: `memoryMB` and `cpuUsagePercent` stay non-negative
across sampling cycles provided every enumerated pid's accounting read
succeeds with a value at least the stored baseline (monotone counters) and
the system delta and core count are non-negative; a record newly inserted by
the memory worker has `cpuUsage = 0.0`. Without those provisos the property
fails: a failed per-process read drives `cpuUsage` negative (see the
counterexample). -/
theorem registry_nonneg_invariant :
    (∀ (statOf : Int → Option ProcStat) (td nc : Int) (active : List ScannedProc)
        (reg : Registry),
      regNonneg reg →
      (∀ p ∈ active, 0 ≤ p.memoryUsage) →
      (∀ x : Int, (regFindD reg x).prevTotalTime ≤ getProcessTotalTime statOf x) →
      0 ≤ td → 0 ≤ nc →
      regNonneg (monitorCpuCycle statOf td nc active reg)) ∧
    (∀ (active : List ScannedProc) (reg : Registry),
      regNonneg reg → (∀ p ∈ active, 0 ≤ p.memoryUsage) →
      regNonneg (monitorMemoryCycle active reg)) ∧
    (∀ (active : List ScannedProc) (reg : Registry) (pid : Int),
      regFind reg pid = none →
      (regFindD (monitorMemoryCycle active reg) pid).cpuUsage = 0) := by
  refine ⟨monitorCpuCycle_nonneg, monitorMemoryCycle_nonneg, ?_⟩
  intro active reg pid hnone
  have h := (regFindD_monitorMemoryCycle_cpuFields active reg pid).1
  rw [h, regFindD, hnone]
  rfl

/-- Witness for claim C3's amended theorem: the invariant applied to an
empty registry and a successful read of pid 7, and the zero initial
`cpuUsage` of the record the memory worker inserts for pid 7. -/
theorem registry_nonneg_invariant_witness :
    regNonneg (monitorCpuCycle statEnvAlive7 50 4 [scanP7] []) ∧
    (regFindD (monitorMemoryCycle [scanP7] []) 7).cpuUsage = 0 := by
  refine ⟨registry_nonneg_invariant.1 statEnvAlive7 50 4 [scanP7] [] ?_ ?_ ?_ (by norm_num)
      (by norm_num),
    registry_nonneg_invariant.2.2 [scanP7] [] 7 rfl⟩
  · intro x
    simp [regFindD, regFind, Process.zeroInit]
  · intro p hp
    rcases List.mem_singleton.mp hp with rfl
    norm_num [scanP7]
  · intro x
    simp only [regFindD, regFind, Option.getD_none, Process.zeroInit]
    by_cases hx : x = 7
    · subst hx
      norm_num [getProcessTotalTime, statEnvAlive7]
    · simp [getProcessTotalTime, statEnvAlive7, hx]

/-- Scanned entry the memory worker sees for pid 1 (memory 90 MB, user
"b"). -/
def scanMem1 : ScannedProc := { pid := 1, user := "b", memoryUsage := 90, command := "cmd" }

/-- Scanned entry the CPU worker sees for pid 1 in its own later
enumeration (memory 10 MB, user "a"). -/
def scanCpu1 : ScannedProc := { pid := 1, user := "a", memoryUsage := 10, command := "x" }

/-- Claim C4 counterexample: after the memory worker publishes pid 1 with
memoryMB 90 and owner "b", one CPU-worker upsert rewrites those fields to
the CPU worker's own scanned values (10 and "a") — the CPU worker does not
write only `cpuUsage`/`prevTotalTime`, it blindly overwrites the whole
record. -/
theorem cpuWorker_overwrites_memory_fields :
    (regFindD (monitorMemoryCycle [scanMem1] []) 1).memoryUsage = 90 ∧
    (regFindD (monitorMemoryCycle [scanMem1] []) 1).user = "b" ∧
    (regFindD (monitorCpuCycle statEnv1 100 4 [scanCpu1] (monitorMemoryCycle [scanMem1] [])) 1).memoryUsage = 10 ∧
    (regFindD (monitorCpuCycle statEnv1 100 4 [scanCpu1] (monitorMemoryCycle [scanMem1] [])) 1).user = "a" := by
  refine ⟨?_, ?_, ?_, ?_⟩ <;>
    norm_num [monitorCpuCycle, cpuUpdateOne, monitorMemoryCycle, memUpdateOne, regFindD,
      regFind, regSet, scanMem1, scanCpu1, statEnv1, getProcessTotalTime, calculateCpuUsage,
      Process.zeroInit]

/-- Claim C4 amended: the memory worker's upsert is a read-modify-write
that writes only `memoryUsage`, `command` and `user`, preserving the CPU
worker's `cpuUsage`/`prevTotalTime` at every pid; the CPU worker's upsert,
however, is a blind overwrite of the entire record — `user`, `memoryUsage`
and `command` are replaced by the CPU worker's own scanned values — so a
memory-worker write survives only until the CPU worker's next cycle touches
the same pid. -/
theorem worker_upsert_frame :
    (∀ (active : List ScannedProc) (reg : Registry) (q : Int),
      (regFindD (monitorMemoryCycle active reg) q).cpuUsage = (regFindD reg q).cpuUsage ∧
      (regFindD (monitorMemoryCycle active reg) q).prevTotalTime =
        (regFindD reg q).prevTotalTime) ∧
    (∀ (reg : Registry) (p : ScannedProc),
      regFindD (memUpdateOne reg p) p.pid =
        { regFindD reg p.pid with
            memoryUsage := p.memoryUsage, command := p.command, user := p.user }) ∧
    (∀ (statOf : Int → Option ProcStat) (td nc : Int) (reg : Registry) (p : ScannedProc),
      regFindD (cpuUpdateOne statOf td nc reg p) p.pid =
        { pid := p.pid
          user := p.user
          cpuUsage := calculateCpuUsage
            (getProcessTotalTime statOf p.pid - (regFindD reg p.pid).prevTotalTime) td nc
          memoryUsage := p.memoryUsage
          prevTotalTime := getProcessTotalTime statOf p.pid
          command := p.command }) := by
  refine ⟨regFindD_monitorMemoryCycle_cpuFields, ?_, regFindD_cpuUpdateOne_self⟩
  intro reg p
  unfold memUpdateOne
  exact regFindD_regSet_self _ _ _

/-- Claim C5 counterexample: the bulk kill by CPU threshold issues its
termination system calls while the registry lock is held (the whole
selection-and-kill loop sits inside one `lock_guard` scope), and the CPU
worker performs its per-process accounting reads while holding the lock —
both traces show blocking I/O between lock acquisition and release. -/
theorem killByCpu_blocks_under_lock :
    holdsLockAcrossBlocking (killProcessesByCpu (fun _ => TermResult.ok) 20 demoReg).1 = true ∧
    holdsLockAcrossBlocking (monitorCpuCycleTrace [scanP1]) = true := by
  constructor <;>
    norm_num [holdsLockAcrossBlocking, killProcessesByCpu, killByCpuLoop, lockHeldAtBlocking,
      blockingEvent, demoReg, demoRec1, demoRec2, monitorCpuCycleTrace, scanP1]

/-- Claim C5 amended: whenever the registry holds a record above the
threshold, `killProcessesByCpu` holds the registry lock across at least one
blocking termination call; and every CPU-worker sampling cycle with a
non-empty enumeration holds the lock across its per-process accounting
reads (only the enumeration and the system CPU-time read happen before the
lock is taken). -/
theorem lock_held_across_blocking_calls (osKill : Int → TermResult) (th : ℚ)
    (reg : Registry) (kv : Int × Process)
    (hmem : kv ∈ reg) (hcpu : th < kv.2.cpuUsage) :
    holdsLockAcrossBlocking (killProcessesByCpu osKill th reg).1 = true ∧
    (∀ active : List ScannedProc, active ≠ [] →
      holdsLockAcrossBlocking (monitorCpuCycleTrace active) = true) := by
  constructor
  · have hne := killByCpuLoop_trace_ne_nil osKill th reg kv hmem hcpu
    rcases killByCpuLoop_trace_shape osKill th reg with hsh | ⟨pid, rest, hsh⟩
    · exact absurd hsh hne
    · unfold holdsLockAcrossBlocking killProcessesByCpu
      simp only [hsh, List.cons_append]
      exact lockHeldAtBlocking_cons_blocking (Ev.termCall pid) (rest ++ [Ev.lockRel]) rfl
  · intro active hne
    cases active with
    | nil => exact absurd rfl hne
    | cons p rest =>
      unfold holdsLockAcrossBlocking monitorCpuCycleTrace
      simp only [List.map_cons, List.cons_append]
      exact lockHeldAtBlocking_cons_blocking (Ev.procRead p.pid)
        ((rest.map fun q => Ev.procRead q.pid) ++ [Ev.lockRel]) rfl

/-- Witness for claim C5's amended theorem: the demo registry's pid 1 (cpu
50) exceeds threshold 20, and the single-pid enumeration is non-empty. -/
theorem lock_held_across_blocking_calls_witness :
    holdsLockAcrossBlocking
      (killProcessesByCpu (fun _ => TermResult.noSuchProcess) 20 demoReg).1 = true ∧
    holdsLockAcrossBlocking (monitorCpuCycleTrace [scanP7]) = true := by
  have h := lock_held_across_blocking_calls (fun _ => TermResult.noSuchProcess) 20 demoReg
    (1, demoRec1) (by simp [demoReg]) (by norm_num [demoRec1])
  exact ⟨h.1, h.2 [scanP7] (by simp)⟩

/-- Claim C6: the claim is that stopping joins/waits for all worker threads
before reporting "Stopped". The code cannot: `start_monitor` detaches the
three worker threads, and the `monitoringThread` object that `stop_monitor`
conditionally joins is never assigned a thread. Evaluating the embedded
lifecycle at the failing input (stop immediately after start): the stop
path joins nothing, yet still reports "Monitoring stopped." while the three
detached workers are outstanding. -/
theorem stop_reports_without_joining_workers :
    (startMonitor initialState none).1.detachedWorkers =
      ["cpuThread", "memoryThread", "displayThread"] ∧
    (startMonitor initialState none).1.monitoringThread = none ∧
    (stopMonitor (startMonitor initialState none).1).joinedThreads = [] ∧
    (stopMonitor (startMonitor initialState none).1).message = "Monitoring stopped." ∧
    (stopMonitor (startMonitor initialState none).1).state.monitoringActive = false :=
  ⟨rfl, rfl, rfl, rfl, rfl⟩

/-- Claim C8: the display snapshot's filter semantics agree with the
specification's predicate (byOwner equality, byCpuAbove/byMemoryAbove
strict), sorting is descending in the sort key and is a permutation of the
filtered rows, and on the worked two-record scenario
`snapshot(cpuAbove 20, ByCpu) = [pid 1]` and
`snapshot(none, ByMemory) = [pid 2, pid 1]`. -/
theorem snapshot_filter_sort_spec :
    (∀ (crit : FilterCriterion) (p : Process),
      keepsRecord crit p = true ↔ snapshotKeepSpec crit p) ∧
    (∀ rows : List Process,
      List.Sorted (fun a b => b.cpuUsage ≤ a.cpuUsage) (sortRows "cpu" rows)) ∧
    (∀ rows : List Process,
      List.Sorted (fun a b => b.memoryUsage ≤ a.memoryUsage) (sortRows "memory" rows)) ∧
    (∀ (k : String) (rows : List Process), List.Perm (sortRows k rows) rows) ∧
    monitorProcessesSnapshot (.byCpu 20) "cpu" demoReg = [demoRec1] ∧
    monitorProcessesSnapshot .nofilter "memory" demoReg = [demoRec2, demoRec1] := by
  refine ⟨?_, ?_, ?_, perm_sortRows, ?_, ?_⟩
  · intro crit p
    cases crit <;> simp [keepsRecord, snapshotKeepSpec, not_le]
  · intro rows
    rw [sortRows_cpu]
    exact sorted_sortDescBy Process.cpuUsage rows
  · intro rows
    rw [sortRows_memory]
    exact sorted_sortDescBy Process.memoryUsage rows
  · norm_num [monitorProcessesSnapshot, snapshotRows, keepsRecord, sortRows_cpu, sortDescBy,
      insertDescBy, List.filter, demoReg, demoRec1, demoRec2]
  · rw [monitorProcessesSnapshot, sortRows_memory]
    norm_num [snapshotRows, keepsRecord, sortDescBy,
      insertDescBy, List.filter, demoReg, demoRec1, demoRec2]

end ProcMan
